import Mathlib

set_option maxHeartbeats 1000000

/-!
Verification development for `bridge_claude_codex_apply.py`.

The script coordinates two text-generation collaborators through a bounded
negotiation loop and applies structured file edits under a workspace root.
This file gives a shallow embedding of its core logic:

* Python strings are modelled as `List Char` (`Str`).
* The filesystem is a pure value: an association list of files plus a list
  of directories (files and directories live in disjoint namespaces; I/O
  failures and symlinks are outside the model, so `Path.resolve` is the
  purely lexical normalisation it performs on a symlink-free tree).
* JSON values are an inductive `Json`; `json.loads` is modelled by a strict
  recursive-descent decoder over the fragment the script exercises
  (objects, arrays, strings without `\u` escapes, integers, literals).
* Python exceptions are `Except Str`: a `.error` is an exception crossing
  the function boundary, an `.ok` is a normal return.
* `re` patterns are modelled over the sublanguage of literal characters,
  `.` (with `re.S`, so it matches every character) and `X*`; patterns using
  constructs outside this sublanguage compile to a distinguished
  `unmodeled` result about which no theorem speaks.  Replacement templates
  model the CPython `sre_parse.parse_template` escape processing (Python ≥ 3.7).
* The negotiation loop is a recursion over remaining turns; the two
  backends are oracles `Nat → Except Str Json` giving, per turn, the parsed
  payload or the exception raised while obtaining/parsing it.
-/

/-- Python strings are modelled as lists of characters. -/
abbrev Str := List Char

def lbrace : Char := Char.ofNat 123

def rbrace : Char := Char.ofNat 125

/-- Whitespace for Python `str.strip` (ASCII fragment). -/
def isPyWs (c : Char) : Bool :=
  c == ' ' || c == '\t' || c == '\n' || c == '\r' || c == Char.ofNat 11 || c == Char.ofNat 12

/-- Python `str.strip()`. -/
def pyStrip (s : Str) : Str :=
  ((s.dropWhile isPyWs).reverse.dropWhile isPyWs).reverse

/-- Python `str.lower()` (ASCII fragment). -/
def pyLower (s : Str) : Str := s.map Char.toLower

/-- Decimal digits to an integer value. -/
def digitsVal (ds : Str) : Int :=
  ds.foldl (fun acc d => acc * 10 + (Int.ofNat (d.toNat - 48))) 0

/-- Decimal rendering of a natural number, as a `Str`. -/
def natStr (n : Nat) : Str := (toString n).toList

/-! ## JSON values (the `dict`/`list`/`str`/`int`/`bool`/`None` universe). -/

inductive Json where
  | null
  | bool (b : Bool)
  | num (n : Int)
  | str (s : Str)
  | arr (l : List Json)
  | obj (m : List (Str × Json))

/-- Python truthiness of a JSON value (`bool(x)`). -/
def pyTruthy : Json → Bool
  | .null => false
  | .bool b => b
  | .num n => n != 0
  | .str s => !s.isEmpty
  | .arr l => !l.isEmpty
  | .obj m => !m.isEmpty

/-- Truthiness of a `dict.get` result (`None` for a missing key is falsy). -/
def pyTruthyO : Option Json → Bool
  | none => false
  | some j => pyTruthy j

/-- Python `dict` lookup: the last binding of a duplicated key wins, as when
`json.loads` builds the dict. -/
def mget : List (Str × Json) → Str → Option Json
  | [], _ => none
  | (k, v) :: rest, key =>
    match mget rest key with
    | some r => some r
    | none => if k = key then some v else none

/-! ## Path model (`pathlib` fragment used by `safe_relpath`).

An absolute path is its list of segments from the filesystem root.  The
workspace root is passed explicitly (the script holds it in the global
`WORKSPACE_ROOT`, already `.resolve()`d at startup). -/

def splitSlashAux : Str → Str → List Str
  | [], acc => [acc.reverse]
  | c :: t, acc => if c = '/' then acc.reverse :: splitSlashAux t [] else splitSlashAux t (c :: acc)

/-- Split a path string on `/`, dropping empty and `.` segments exactly as
`pathlib.PurePosixPath` does. -/
def splitSlash (s : Str) : List Str :=
  (splitSlashAux s []).filter (fun seg => !(seg.isEmpty || seg == ['.']))

/-- Python `PurePosixPath.is_absolute` for the supplied string. -/
def pyIsAbs (s : Str) : Bool :=
  match s with
  | c :: _ => c == '/'
  | [] => false

/-- Lexical `..` elimination performed by `Path.resolve()` on a symlink-free
tree; `..` at the filesystem root stays at the root. -/
def resolveSegs (segs : List Str) : List Str :=
  segs.foldl (fun acc seg => if seg = "..".toList then acc.dropLast else acc ++ [seg]) []

/-- Models `(WORKSPACE_ROOT / path_str).resolve()`: an absolute `path_str` replaces
the root, otherwise the segments are appended, then normalised. -/
def resolvePath (root : List Str) (s : Str) : List Str :=
  resolveSegs ((if pyIsAbs s then [] else root) ++ splitSlash s)

/-- Rendering of an absolute path for error messages. -/
def renderPath (p : List Str) : Str :=
  p.foldl (fun acc seg => acc ++ '/' :: seg) []

/-- Message of the `ValueError` raised by `safe_relpath`. -/
def escMsg (root : List Str) (s : Str) : Str :=
  "Chemin hors workspace_root: ".toList ++ renderPath (resolvePath root s)

/-- Models `safe_relpath`: resolve against the root and raise `ValueError` unless the
result is the root or a strict descendant of it.  `WORKSPACE_ROOT in
p.parents or p == WORKSPACE_ROOT` is exactly `root <+: p` on segment lists. -/
def safe_relpath (root : List Str) (s : Str) : Except Str (List Str) :=
  let p := resolvePath root s
  if root.isPrefixOf p then .ok p
  else .error (escMsg root s)

/-! ## Filesystem model. -/

structure FS where
  files : List (List Str × Str)
  dirs : List (List Str)

def setAssoc (p : List Str) (c : Str) : List (List Str × Str) → List (List Str × Str)
  | [] => [(p, c)]
  | (q, d) :: rest => if q = p then (p, c) :: rest else (q, d) :: setAssoc p c rest

def getAssoc (p : List Str) : List (List Str × Str) → Option Str
  | [] => none
  | (q, d) :: rest => if q = p then some d else getAssoc p rest

/-- Models `target.write_text(c)`. -/
def FS.write (fs : FS) (p : List Str) (c : Str) : FS :=
  { fs with files := setAssoc p c fs.files }

/-- Models `target.read_text() if target.exists() else ""`. -/
def FS.readD (fs : FS) (p : List Str) : Str :=
  (getAssoc p fs.files).getD []

/-- Models `target.parent.mkdir(parents=True, exist_ok=True)`: the parent directory
and all its ancestors now exist. -/
def mkdirParents (p : List Str) (fs : FS) : FS :=
  { fs with dirs := p.inits ++ fs.dirs }

/-! ## Regular expressions (`re` fragment used by `patch_block` with
`regex=true`).

Modelled sublanguage: literal characters (with punctuation escapes and
`\n`/`\t`/`\r`-style escapes), `.` under `re.S` (line 154 passes
`flags=re.S`, so `.` matches every character including newlines), and `X*`
where `X` is a single literal or `.`.  Patterns that are invalid in Python
(`*` with nothing to repeat, a bad escape, a group reference with no
groups) compile to `invalid`, which `re.subn` raises as `re.error`;
patterns that are valid Python but outside the sublanguage compile to
`unmodeled`, about which no theorem in this file says anything. -/

inductive RAtom where
  | rch (c : Char)
  | rany

inductive RPiece where
  | pch (c : Char)
  | pany
  | pstar (a : RAtom)

inductive RegexC where
  | compiled (p : List RPiece)
  | invalid
  | unmodeled

/-- Pattern-side escape map for `\` followed by a letter: the escapes that
denote a single literal character. -/
def escMapP (c : Char) : Option Char :=
  if c = 'n' then some '\n'
  else if c = 't' then some '\t'
  else if c = 'r' then some '\r'
  else if c = 'a' then some (Char.ofNat 7)
  else if c = 'f' then some (Char.ofNat 12)
  else if c = 'v' then some (Char.ofNat 11)
  else none

/-- Letter escapes that are valid Python classes/anchors outside the modelled
sublanguage (`\d`, `\w`, `\s`, `\b`, …, and `\x`/`\u`/`\U`/`\N` literals). -/
def classEsc : List Char :=
  ['d', 'w', 's', 'b', 'B', 'A', 'Z', 'D', 'W', 'S', 'x', 'u', 'U', 'N']

/-- Unescaped metacharacters that are valid Python but outside the modelled
sublanguage. -/
def unmodeledMeta : List Char :=
  ['+', '?', '(', ')', '[', ']', '|', '^', '$', lbrace, rbrace]

/-- Compilation of a pattern string (`re.compile`), over the modelled
sublanguage; `acc` holds the pieces built so far, reversed. -/
def compileAux : Str → List RPiece → RegexC
  | [], acc => .compiled acc.reverse
  | c :: rest, acc =>
    if c = '\\' then
      match rest with
      | [] => .invalid
      | d :: rest2 =>
        if d = '0' then .unmodeled
        else if d.isDigit then .invalid
        else if d ∈ classEsc then .unmodeled
        else if d.isAlpha then
          match escMapP d with
          | some e => compileAux rest2 (.pch e :: acc)
          | none => .invalid
        else compileAux rest2 (.pch d :: acc)
    else if c = '*' then
      match acc with
      | .pch e :: acc2 => compileAux rest (.pstar (.rch e) :: acc2)
      | .pany :: acc2 => compileAux rest (.pstar .rany :: acc2)
      | .pstar _ :: _ => .invalid
      | [] => .invalid
    else if c = '.' then compileAux rest (.pany :: acc)
    else if c ∈ unmodeledMeta then .unmodeled
    else compileAux rest (.pch c :: acc)

def reCompile (s : Str) : RegexC := compileAux s []

def atomMatches (a : RAtom) (c : Char) : Bool :=
  match a with
  | .rch d => c == d
  | .rany => true

/-- Length of the longest run of leading characters matched by an atom. -/
def leadRun (a : RAtom) : Str → Nat
  | [] => 0
  | c :: t => if atomMatches a c then leadRun a t + 1 else 0

/-- First successful result of `f` over the candidate list. -/
def firstSome (f : Nat → Option Nat) : List Nat → Option Nat
  | [] => none
  | i :: is =>
    match f i with
    | some r => some r
    | none => firstSome f is

/-- Backtracking match of a piece list against a prefix of the text,
returning the number of characters consumed.  A greedy `pstar` prefers the
longest repetition first, exactly as the Python engine does on this
sublanguage (no alternation, so preference order is just greed).  The
fuel argument makes the recursion structural; every recursive call pops a
piece, so any fuel above the piece count, as `matchPieces` supplies, gives
the fuel-free semantics. -/
def matchPiecesF : Nat → List RPiece → Str → Option Nat
  | 0, _, _ => none
  | _ + 1, [], _ => some 0
  | _ + 1, .pch _ :: _, [] => none
  | fuel + 1, .pch c :: ps, a :: t => if a == c then (matchPiecesF fuel ps t).map (· + 1) else none
  | _ + 1, .pany :: _, [] => none
  | fuel + 1, .pany :: ps, _ :: t => (matchPiecesF fuel ps t).map (· + 1)
  | fuel + 1, .pstar a :: ps, t =>
    firstSome (fun i => (matchPiecesF fuel ps (t.drop i)).map (i + ·))
      ((List.range (leadRun a t + 1)).reverse)

def matchPieces (p : List RPiece) (t : Str) : Option Nat :=
  matchPiecesF (p.length + 1) p t

/-- Scanning core of `re.subn(pattern, repl, text)` (Python 3.7+ empty-match
semantics): at each position try the leftmost match; a non-empty match is
replaced and scanning resumes after it; an empty match inserts the
replacement and the scanner advances one character; otherwise the character
is copied.  Returns the new text and the match count. -/
def subnAuxF (p : List RPiece) (r : Str) : Nat → Str → Str × Nat
  | 0, _ => ([], 0)
  | _ + 1, [] =>
    match matchPieces p [] with
    | some _ => (r, 1)
    | none => ([], 0)
  | fuel + 1, a :: t =>
    match matchPieces p (a :: t) with
    | none =>
      let s := subnAuxF p r fuel t
      (a :: s.1, s.2)
    | some 0 =>
      let s := subnAuxF p r fuel t
      (r ++ a :: s.1, s.2 + 1)
    | some (m + 1) =>
      let s := subnAuxF p r fuel (t.drop m)
      (r ++ s.1, s.2 + 1)

def subnAux (p : List RPiece) (r : Str) (t : Str) : Str × Nat :=
  subnAuxF p r (t.length + 1) t

/-! ## Replacement templates (`sre_parse.parse_template`).

In `re.subn(find, content, text)` the replacement string is not inserted
verbatim: backslash escapes are processed first.  `\n`, `\t`, `\r`, `\a`,
`\b`, `\f`, `\v` and `\\` become single characters; `\1` … `\9` are group
references (an `re.error`, since the modelled patterns contain no groups);
`\g` starts a named or whole-match reference (`\g<0>` is valid, a bare
`\g` an `re.error`), outside the modelled fragment; an unknown
ASCII-letter escape is an `re.error` (Python 3.7+); a backslash before any
other character is kept literally together with that character.  `\0` is an
octal escape, outside the modelled fragment. -/

inductive TemplC where
  | tok (s : Str)
  | terr
  | tunmodeled

def escMapT (c : Char) : Option Char :=
  if c = 'n' then some '\n'
  else if c = 't' then some '\t'
  else if c = 'r' then some '\r'
  else if c = 'a' then some (Char.ofNat 7)
  else if c = 'b' then some (Char.ofNat 8)
  else if c = 'f' then some (Char.ofNat 12)
  else if c = 'v' then some (Char.ofNat 11)
  else if c = '\\' then some '\\'
  else none

def tcons (c : Char) : TemplC → TemplC
  | .tok s => .tok (c :: s)
  | x => x

def expandTemplate : Str → TemplC
  | [] => .tok []
  | c :: rest =>
    if c = '\\' then
      match rest with
      | [] => .terr
      | d :: rest2 =>
        if d = '0' then .tunmodeled
        else if d.isDigit then .terr
        else if d = 'g' then .tunmodeled
        else
          match escMapT d with
          | some e => tcons e (expandTemplate rest2)
          | none => if d.isAlpha then .terr else tcons '\\' (tcons d (expandTemplate rest2))
    else tcons c (expandTemplate rest)

/-- Models Python `find in text`: substring containment. -/
def strIn (find : Str) : Str → Bool
  | [] => find.isPrefixOf ([] : Str)
  | a :: t => find.isPrefixOf (a :: t) || strIn find t

/-- Models Python `text.replace(find, content, 1)`: replace the first,
leftmost occurrence only.  With an empty `find` Python inserts at position
0, which the guard in `apply_change` makes unreachable. -/
def pyReplace1 (find repl : Str) : Str → Str
  | [] => if find.isPrefixOf ([] : Str) then repl else []
  | a :: t =>
    if find.isPrefixOf (a :: t) then repl ++ (a :: t).drop find.length
    else a :: pyReplace1 find repl t

/-! ## JSON decoding (`json.loads` fragment).

A strict recursive-descent decoder.  Modelled fragment: objects, arrays,
strings (standard escapes except `\uXXXX`), integers (with the
leading-zero rule), `true`/`false`/`null`, and the four JSON whitespace
characters.  Floats and `\u` escapes are outside the fragment (the script
only ever consumes scores, strings and edit lists); on such input the
modelled decoder fails where Python may succeed, and no theorem below
exercises them.  The fuel argument is at least the input length plus one,
and every recursive call consumes at least one character first, so fuel
never runs out on the modelled fragment. -/

def jSkipWs (t : Str) : Str :=
  t.dropWhile (fun c => c == ' ' || c == '\t' || c == '\n' || c == '\r')

def parseJString : Str → Option (Str × Str)
  | [] => none
  | c :: t =>
    if c = '"' then some ([], t)
    else if c = '\\' then
      match t with
      | [] => none
      | d :: t2 =>
        let e : Option Char :=
          if d = '"' then some '"'
          else if d = '\\' then some '\\'
          else if d = '/' then some '/'
          else if d = 'n' then some '\n'
          else if d = 't' then some '\t'
          else if d = 'r' then some '\r'
          else if d = 'b' then some (Char.ofNat 8)
          else if d = 'f' then some (Char.ofNat 12)
          else none
        match e with
        | some e0 => (parseJString t2).map (fun sr => (e0 :: sr.1, sr.2))
        | none => none
    else if c.toNat < 32 then none
    else (parseJString t).map (fun sr => (c :: sr.1, sr.2))

def parseJNum (t : Str) : Option (Json × Str) :=
  let neg := match t with
    | '-' :: _ => true
    | _ => false
  let t1 := if neg then t.drop 1 else t
  let ds := t1.takeWhile Char.isDigit
  let rest := t1.dropWhile Char.isDigit
  if ds.isEmpty then none
  else if 1 < ds.length ∧ ds.headD ' ' = '0' then none
  else
    match rest with
    | '.' :: _ => none
    | 'e' :: _ => none
    | 'E' :: _ => none
    | _ => some (.num (if neg then -(digitsVal ds) else digitsVal ds), rest)

inductive PMode where
  | val
  | members
  | items

def parseF : Nat → PMode → Str → Option (Json × Str)
  | 0, _, _ => none
  | fuel + 1, .val, t =>
    match t with
    | [] => none
    | c :: rest =>
      if c = '"' then (parseJString rest).map (fun sr => (.str sr.1, sr.2))
      else if c = lbrace then
        match jSkipWs rest with
        | d :: r2 => if d = rbrace then some (.obj [], r2) else parseF fuel .members (jSkipWs rest)
        | [] => none
      else if c = '[' then
        match jSkipWs rest with
        | d :: r2 => if d = ']' then some (.arr [], r2) else parseF fuel .items (jSkipWs rest)
        | [] => none
      else if "true".toList.isPrefixOf t then some (.bool true, t.drop 4)
      else if "false".toList.isPrefixOf t then some (.bool false, t.drop 5)
      else if "null".toList.isPrefixOf t then some (.null, t.drop 4)
      else parseJNum t
  | fuel + 1, .members, t =>
    match t with
    | c :: rest =>
      if c = '"' then
        match parseJString rest with
        | some (k, r1) =>
          match jSkipWs r1 with
          | ':' :: r2 =>
            match parseF fuel .val (jSkipWs r2) with
            | some (v, r3) =>
              match jSkipWs r3 with
              | ',' :: r4 =>
                match parseF fuel .members (jSkipWs r4) with
                | some (.obj kvs, r5) => some (.obj ((k, v) :: kvs), r5)
                | _ => none
              | d :: r4 => if d = rbrace then some (.obj [(k, v)], r4) else none
              | [] => none
            | none => none
          | _ => none
        | none => none
      else none
    | [] => none
  | fuel + 1, .items, t =>
    match parseF fuel .val t with
    | some (v, r1) =>
      match jSkipWs r1 with
      | ',' :: r2 =>
        match parseF fuel .items (jSkipWs r2) with
        | some (.arr vs, r3) => some (.arr (v :: vs), r3)
        | _ => none
      | ']' :: r2 => some (.arr [v], r2)
      | _ => none
    | none => none

/-- Models `json.loads`: decode one value and require only whitespace after
it. -/
def parseJson (t : Str) : Option Json :=
  let t1 := jSkipWs t
  match parseF (t1.length + 1) .val t1 with
  | some (j, r) => if (jSkipWs r).isEmpty then some j else none
  | none => none

/-! ## Response parser (`parse_first_json_block`).

The source computes `re.findall` of the raw pattern open-brace, greedy
dot-star, close-brace over the text with `re.S` (line 81).  Because
`.*` is greedy and dot matches newline, the first (and only possible) match
runs from the first `{` of the text to the last `}`; after it no `}`
remains, so no further match exists.  `candList` computes exactly that
candidate list of length at most one. -/

def candList (t : Str) : List Str :=
  let u := t.dropWhile (fun c => !(c == lbrace))
  let v := (u.reverse.dropWhile (fun c => !(c == rbrace))).reverse
  if v.isEmpty then [] else [v]

/-- Message of the `ValueError` raised when no JSON is found. -/
def msgNoJson : Str := "Réponse sans JSON valide.".toList

/-- Marker for the `json.JSONDecodeError` that propagates uncaught out of the
final `json.loads(text_stripped)` (line 90 is not inside a `try`). -/
def msgJsonDecode : Str := "json.decoder.JSONDecodeError".toList

def pfjFallback (t : Str) : Except Str Json :=
  let ts := pyStrip t
  if ts.headD ' ' = lbrace ∧ ts.getLastD ' ' = rbrace then
    match parseJson ts with
    | some j => .ok j
    | none => .error msgJsonDecode
  else .error msgNoJson

/-- Models `parse_first_json_block`: try each candidate (there is at most
one, see `candList`), then fall back to strict decoding of the stripped
text when it starts with `{` and ends with `}`, else raise `ValueError`. -/
def parse_first_json_block (t : Str) : Except Str Json :=
  match candList t with
  | c :: _ =>
    match parseJson c with
    | some j => .ok j
    | none => pfjFallback t
  | [] => pfjFallback t

/-! ## Change executor (`apply_change`) and batch applier (`apply_changes`).

An edit operation is the raw JSON dict the collaborators produced.  The
return type `Except Str (Bool × Str × FS)` separates the normal
`(ok, message)` return of the function (with the updated filesystem) from an exception
crossing the boundary of `apply_change`: the `ValueError` of `safe_relpath`, or
the `TypeError`/`AttributeError` of using a non-string where Python needs a
string (I/O failures, the one other exception source, are outside the
filesystem model).  `apply_changes` catches every exception and turns it
into a warning line, as the `try`/`except` of the source does. -/

def kAction : Str := "action".toList

def kPath : Str := "path".toList

def kContent : Str := "content".toList

def kFind : Str := "find".toList

def kRegex : Str := "regex".toList

def msgIncomplete : Str := "change incomplet (action/path manquant).".toList

def msgNoFind : Str := "patch_block sans \x27find\x27.".toList

def msgBadRegex : Str := "regex invalide: ".toList

def msgUnmodeledRegex : Str := "<regex hors du sous-langage modélisé>".toList

def msgNotFoundRegex : Str := "rien trouvé pour regex dans ".toList

def msgNotFoundLit : Str := "bloc \x27find\x27 introuvable dans ".toList

def msgUnknownAction : Str := "action inconnue: ".toList

def msgTypeErr : Str := "TypeError".toList

def msgAttrErr : Str := "AttributeError: \x27get\x27".toList

/-- Branch of `apply_change` for `action == "patch_block"` (lines 146-166),
entered after the path guard and `mkdir`; `fs1` already contains the new
parent directories. -/
def apply_patch (m : List (Str × Json)) (ps : Str) (target : List Str) (content : Json)
    (fs1 : FS) : Except Str (Bool × Str × FS) :=
  let findv := mget m kFind
  let regex := pyTruthyO (mget m kRegex)
  if !(pyTruthyO findv) then .ok (false, msgNoFind, fs1)
  else
    match findv with
    | some (.str f) =>
      let text := fs1.readD target
      if regex then
        match reCompile f with
        | .invalid => .ok (false, msgBadRegex, fs1)
        | .unmodeled => .ok (false, msgUnmodeledRegex, fs1)
        | .compiled p =>
          match content with
          | .str c =>
            match expandTemplate c with
            | .terr => .ok (false, msgBadRegex, fs1)
            | .tunmodeled => .ok (false, msgUnmodeledRegex, fs1)
            | .tok r =>
              let sn := subnAux p r text
              if sn.2 = 0 then .ok (false, msgNotFoundRegex ++ ps, fs1)
              else
                .ok (true, "[patch_block/regex x".toList ++ natStr sn.2 ++ "] ".toList ++ ps,
                  fs1.write target sn.1)
          | _ => .error msgTypeErr
      else
        if strIn f text then
          match content with
          | .str c => .ok (true, "[patch_block] ".toList ++ ps, fs1.write target (pyReplace1 f c text))
          | _ => .error msgTypeErr
        else .ok (false, msgNotFoundLit ++ ps, fs1)
    | some _ => .error msgTypeErr
    | none => .ok (false, msgNoFind, fs1)

/-- Models `apply_change` (lines 127-169).  The incompleteness check comes
first; `safe_relpath` may raise (`.error`); `mkdir` of the parent runs
before the action dispatch, so even a failing dispatch leaves the new
directories behind. -/
def apply_change (root : List Str) (change : Json) (fs : FS) : Except Str (Bool × Str × FS) :=
  match change with
  | .obj m =>
    let action := mget m kAction
    let pathv := mget m kPath
    let content := (mget m kContent).getD (.str [])
    if !(pyTruthyO action) || !(pyTruthyO pathv) then .ok (false, msgIncomplete, fs)
    else
      match pathv with
      | some (.str ps) =>
        match safe_relpath root ps with
        | .error e => .error e
        | .ok target =>
          let fs1 := mkdirParents target.dropLast fs
          match action with
          | some (.str a) =>
            if a = "replace".toList then
              match content with
              | .str c => .ok (true, "[replace] ".toList ++ ps, fs1.write target c)
              | _ => .error msgTypeErr
            else if a = "append".toList then
              match content with
              | .str c => .ok (true, "[append] ".toList ++ ps, fs1.write target (fs1.readD target ++ c))
              | _ => .error msgTypeErr
            else if a = "patch_block".toList then apply_patch m ps target content fs1
            else .ok (false, msgUnknownAction ++ a, fs1)
          | some _ => .ok (false, msgUnknownAction, fs1)
          | none => .ok (false, msgIncomplete, fs)
      | some _ => .error msgTypeErr
      | none => .ok (false, msgIncomplete, fs)
  | _ => .error msgAttrErr

def okMark : Str := "✅ ".toList

def warnMark : Str := "⚠️ ".toList

def errMark : Str := "ERREUR: ".toList

/-- Models `apply_changes` (lines 171-180) on an already-materialised list of
edits: each edit yields exactly one log line; an exception from
`apply_change` is caught and reported as a warning line, and the batch
continues with the filesystem unchanged by the failed edit. -/
def apply_changes (root : List Str) : List Json → FS → List Str × FS
  | [], fs => ([], fs)
  | ch :: rest, fs =>
    let st :=
      match apply_change root ch fs with
      | .ok (ok, msg, fs2) => ((if ok then okMark else warnMark) ++ msg, fs2)
      | .error e => (warnMark ++ errMark ++ e, fs)
    let r := apply_changes root rest st.2
    (st.1 :: r.1, r.2)

/-! ## Negotiation loop (`main`, lines 183-295).

The two backends are oracles `Nat → Except Str Json`: for each turn index,
either the payload obtained by `parse_first_json_block` on the text of the backend, or the exception raised while calling the backend or parsing (both
are caught by the same `except` and `break` the loop).  The console answer
at the manual gate is `Option Str` (`none` models `EOFError`).

Faithfully modelled quirks of the source:

* `c_score = int(claude_json.get("score", 1))` (line 224) runs outside any
  `try`: a non-numeric score raises an uncaught exception (`crash`).
* `last_claude`/`last_codex` are initialised to `{}` and never reassigned,
  so at line 276 `last_codex` is always falsy and the candidate is the
  loop variable `d_changes`; if no iteration completed a full Reviewer
  parse, `d_changes` is unbound and line 276 raises `NameError` (`crash`).
* `APPLY_IMMEDIATELY_ON_DOUBLE_5` is the constant `True`.
-/

def kScore : Str := "score".toList

def kChanges : Str := "changes".toList

def msgIntErr : Str := "int() argument invalide".toList

def msgIterErr : Str := "TypeError: objet non itérable".toList

def msgNameErr : Str := "NameError: name \x27d_changes\x27 is not defined".toList

/-- Models Python `int(x)` on a JSON value (integer fragment: `int` of a
string strips whitespace and accepts an optional sign and digits). -/
def pyInt : Json → Except Str Int
  | .num n => .ok n
  | .bool b => .ok (if b then 1 else 0)
  | .str s =>
    let s1 := pyStrip s
    let s2 := match s1 with
      | '-' :: r => r
      | '+' :: r => r
      | _ => s1
    let neg := match s1 with
      | '-' :: _ => true
      | _ => false
    if !s2.isEmpty && s2.all Char.isDigit then
      .ok (if neg then -(digitsVal s2) else digitsVal s2)
    else .error msgIntErr
  | _ => .error msgIntErr

/-- Models `j.get(k, d)`; on a non-dict payload `.get` raises
`AttributeError`. -/
def jgetE (j : Json) (k : Str) (d : Json) : Except Str Json :=
  match j with
  | .obj m => .ok ((mget m k).getD d)
  | _ => .error msgAttrErr

/-- Models `int(j.get("score", 1))` (lines 224 and 246, outside the `try`). -/
def readScore (j : Json) : Except Str Int :=
  (jgetE j kScore (.num 1)).bind pyInt

/-- Models `j.get("changes", [])` (lines 227 and 249). -/
def readChanges (j : Json) : Except Str Json :=
  jgetE j kChanges (.arr [])

/-- Python `for ch in x` over a JSON value: lists iterate their items,
strings their characters, dicts their keys; other values raise
`TypeError`. -/
def iterJson : Json → Except Str (List Json)
  | .arr l => .ok l
  | .str s => .ok (s.map (fun c => .str [c]))
  | .obj m => .ok (m.map (fun kv => .str kv.1))
  | _ => .error msgIterErr

/-- Python `a or b`. -/
def pyOrJ (a b : Json) : Json := if pyTruthy a then a else b

/-- Models a call `apply_changes(x)` where `x` is the raw JSON value: the
source iterates `changes or []` (line 173), which can itself raise
`TypeError` when `x` is truthy but not iterable. -/
def apply_changes_py (root : List Str) (x : Json) (fs : FS) : Except Str (List Str × FS) :=
  match iterJson (pyOrJ x (.arr [])) with
  | .error e => .error e
  | .ok ops => .ok (apply_changes root ops fs)

/-- Processing of the console answer at the manual gate (line 285):
`input(...).strip().lower()`, with `EOFError` giving `"n"`. -/
def pyAnswer : Option Str → Str
  | none => "n".toList
  | some s => pyLower (pyStrip s)

/-- Outcome of a run of the loop of `main`.  `crash e broke rc fs` is an uncaught
exception `e` after `broke` was printed as a backend error (if any), with
`rc` Reviewer invocations attempted so far and the filesystem in state
`fs`; the other constructors record the terminal prints of the source. -/
inductive Outcome where
  | commit (turn : Nat) (logs : List Str) (fs : FS)
  | crash (err : Str) (broke : Option Str) (reviewerCalls : Nat) (fs : FS)
  | noCandidate (broke : Option Str) (turn : Nat) (fs : FS)
  | declined (broke : Option Str) (turn : Nat) (cand : Json) (fs : FS)
  | applied (broke : Option Str) (turn : Nat) (cand : Json) (logs : List Str) (fs : FS)

/-- Filesystem component of an outcome. -/
def Outcome.fsOf : Outcome → FS
  | .commit _ _ fs => fs
  | .crash _ _ _ fs => fs
  | .noCandidate _ _ fs => fs
  | .declined _ _ _ fs => fs
  | .applied _ _ _ _ fs => fs

/-- Models lines 273-295, the code after the `while` loop (reached by
exhaustion or by `break`).  `cPrev`/`dPrev` are the Python bindings of
`c_changes`/`d_changes` (`none` = unbound).  Since `last_codex` is always
`{}` (falsy), line 276 evaluates `d_changes`: `NameError` if unbound. -/
def postLoop (root : List Str) (answer : Option Str) (broke : Option Str) (turn rc : Nat)
    (cPrev dPrev : Option Json) (fs : FS) : Outcome :=
  match dPrev, cPrev with
  | none, _ => .crash msgNameErr broke rc fs
  | some _, none => .crash msgNameErr broke rc fs
  | some dCh, some cCh =>
    let cand := if pyTruthy dCh then dCh else cCh
    if pyTruthy cand then
      if pyAnswer answer = "o".toList then
        match apply_changes_py root cand fs with
        | .error e => .crash e broke rc fs
        | .ok (logs, fs2) => .applied broke turn cand logs fs2
      else .declined broke turn cand fs
    else .noCandidate broke turn fs

/-- Models the `while turn < TURN_LIMIT` loop of `main` (lines 216-271),
with `fuel = TURN_LIMIT - turn` remaining iterations.  Each iteration asks
the Proposer, coerces its score, asks the Reviewer, coerces its score,
commits on a double 5, and otherwise carries both `changes` values into
the variable bindings of the next iteration. -/
def negotiate (root : List Str) (cSeq dSeq : Nat → Except Str Json) (answer : Option Str) :
    Nat → Nat → Nat → Option Json → Option Json → FS → Outcome
  | 0, turn, rc, cPrev, dPrev, fs => postLoop root answer none turn rc cPrev dPrev fs
  | fuel + 1, turn, rc, cPrev, dPrev, fs =>
    match cSeq turn with
    | .error e => postLoop root answer (some e) turn rc cPrev dPrev fs
    | .ok cj =>
      match readScore cj with
      | .error e => .crash e none rc fs
      | .ok cs =>
        match readChanges cj with
        | .error e => .crash e none rc fs
        | .ok cCh =>
          match dSeq turn with
          | .error e => postLoop root answer (some e) turn (rc + 1) (some cCh) dPrev fs
          | .ok dj =>
            match readScore dj with
            | .error e => .crash e none (rc + 1) fs
            | .ok ds =>
              match readChanges dj with
              | .error e => .crash e none (rc + 1) fs
              | .ok dCh =>
                if cs = 5 ∧ ds = 5 then
                  match apply_changes_py root (pyOrJ dCh cCh) fs with
                  | .error e => .crash e none (rc + 1) fs
                  | .ok (logs, fs2) => .commit turn logs fs2
                else negotiate root cSeq dSeq answer fuel (turn + 1) (rc + 1) (some cCh) (some dCh) fs

/-- The turn bound of the source (line 17). -/
def TURN_LIMIT : Nat := 5

/-- Models one run of `main` after the question prompt: the full loop from
turn 0 with unbound `c_changes`/`d_changes`. -/
def runMain (root : List Str) (cSeq dSeq : Nat → Except Str Json) (answer : Option Str)
    (fs : FS) : Outcome :=
  negotiate root cSeq dSeq answer TURN_LIMIT 0 0 none none fs

/-- One completed, non-convergent turn of the loop: both payloads arrive,
both scores coerce, and the pair of scores is not a double 5. -/
def GoodTurn (cSeq dSeq : Nat → Except Str Json) (cs ds : Nat → Int) (cch dch : Nat → Json)
    (u : Nat) : Prop :=
  ∃ cj dj, cSeq u = .ok cj ∧ dSeq u = .ok dj ∧
    readScore cj = .ok (cs u) ∧ readChanges cj = .ok (cch u) ∧
    readScore dj = .ok (ds u) ∧ readChanges dj = .ok (dch u)

/-- Scenario constants for the convergence and exhaustion scenarios of the
specification: a bare score-5 payload, a score-5 payload carrying one
`replace` of `"hello"` into `notes.txt`, and a score-3 variant. -/
def opNotes : Json :=
  .obj [(kAction, .str "replace".toList), (kPath, .str "notes.txt".toList),
        (kContent, .str "hello".toList)]

def jP5 : Json := .obj [(kScore, .num 5)]

def jR5 : Json := .obj [(kScore, .num 5), (kChanges, .arr [opNotes])]

def jR3 : Json := .obj [(kScore, .num 3), (kChanges, .arr [opNotes])]

def fsEmpty : FS := { files := [], dirs := [] }

/-- Scenario constants for the broken-turn scenario: a bare score-3 payload
(whose `changes` default to the falsy empty list), a Proposer that always
answers `jR3`, and a Reviewer that answers `jD3` on turn 0 and then fails. -/
def jD3 : Json := .obj [(kScore, .num 3)]

def cSeqC4 : Nat → Except Str Json := fun _ => .ok jR3

def dSeqC4 : Nat → Except Str Json :=
  fun t => if t = 0 then .ok jD3 else .error "Boom".toList

/-! ## Helper lemmas. -/

/-- Dropping while a predicate holds skips a block on which it holds
everywhere. -/
theorem dropWhile_append_all {p : Char → Bool} {l1 l2 : Str} (h : ∀ a ∈ l1, p a = true) :
    (l1 ++ l2).dropWhile p = l2.dropWhile p := by
  induction l1 with
  | nil => rfl
  | cons a t ih =>
    simp only [List.cons_append, List.dropWhile_cons, h a (by simp)]
    exact ih (fun b hb => h b (by simp [hb]))

/-- Template expansion is the identity on backslash-free replacement
strings: this is the exact sense in which `content` is inserted as exact
text by the regex branch. -/
theorem expandTemplate_no_backslash (s : Str) (h : '\\' ∉ s) : expandTemplate s = .tok s := by
  induction s with
  | nil => simp [expandTemplate]
  | cons c t ih =>
    have hc : ¬ c = '\\' := fun hcc => h (hcc ▸ List.mem_cons_self c t)
    have ht : '\\' ∉ t := fun hm => h (List.mem_cons_of_mem c hm)
    rw [expandTemplate.eq_def]
    simp only [if_neg hc, ih ht]
    rfl

/-- Characterisation of `text.replace(find, content, 1)`: the first,
leftmost occurrence of `find` is replaced and everything after it is kept
verbatim. -/
theorem pyReplace1_spec (find repl t : Str) (hne : find ≠ []) (h : strIn find t = true) :
    ∃ pfx sfx, t = pfx ++ find ++ sfx ∧ pyReplace1 find repl t = pfx ++ repl ++ sfx ∧
      ∀ pfx2 sfx2, t = pfx2 ++ find ++ sfx2 → pfx.length ≤ pfx2.length := by
  induction t with
  | nil =>
    exfalso
    have : find.isPrefixOf ([] : Str) = true := h
    rw [List.isPrefixOf_iff_prefix] at this
    exact hne (List.prefix_nil.mp this)
  | cons a t ih =>
    by_cases hp : find.isPrefixOf (a :: t) = true
    · refine ⟨[], (a :: t).drop find.length, ?_, ?_, ?_⟩
      · obtain ⟨s, hs⟩ := List.isPrefixOf_iff_prefix.mp hp
        conv_lhs => rw [← hs]
        simp [← hs, List.drop_left]
      · obtain ⟨s, hs⟩ := List.isPrefixOf_iff_prefix.mp hp
        simp [pyReplace1, hp, ← hs, List.drop_left]
      · intro pfx2 sfx2 _
        simp
    · have hstep : strIn find t = true := by
        have := h
        simp only [strIn, Bool.or_eq_true] at this
        rcases this with h1 | h2
        · exact absurd h1 hp
        · exact h2
      obtain ⟨pfx, sfx, ht, hrep, hmin⟩ := ih hstep
      refine ⟨a :: pfx, sfx, by simp [ht], ?_, ?_⟩
      · simp [pyReplace1, hp, hrep]
      · intro pfx2 sfx2 heq
        match pfx2, heq with
        | [], heq =>
          exfalso
          apply hp
          rw [List.isPrefixOf_iff_prefix]
          exact ⟨sfx2, by simpa using heq.symm⟩
        | b :: p2, heq =>
          have : t = p2 ++ find ++ sfx2 := by
            have h2 := (by simpa using heq : a = b ∧ t = p2 ++ (find ++ sfx2)).2
            simpa [List.append_assoc] using h2
          have := hmin p2 sfx2 this
          simp
          omega

/-! ## Claim C1 — exception boundary of the change executor. -/

/-- Claim C1, counterexample: `apply_change` itself does raise past its
boundary.  On an otherwise complete `replace` whose path resolves outside
the workspace root, `safe_relpath` raises `ValueError` (line 124) and
`apply_change` does not catch it, so the failure leaves `apply_change` as
an exception, not as a `(false, reason)` pair. -/
theorem apply_change_throws_on_escape :
    apply_change ["ws".toList]
      (.obj [(kAction, .str "replace".toList), (kPath, .str "../x".toList),
             (kContent, .str "hi".toList)])
      { files := [], dirs := [] }
      = .error (escMsg ["ws".toList] "../x".toList) := rfl

/-- Claim C1, amended: the no-throw boundary is `apply_changes`, not
`apply_change`.  Every edit of a batch — whatever its failure mode —
produces exactly one outcome line, marked as a success or as a warning;
exceptions raised by `apply_change` (path escape, non-string fields) are
caught there and reported as warning lines, so no exception escapes the
batch boundary. -/
theorem apply_changes_reports_every_edit (root : List Str) (changes : List Json) (fs : FS) :
    (apply_changes root changes fs).1.length = changes.length ∧
    ∀ l ∈ (apply_changes root changes fs).1, okMark <+: l ∨ warnMark <+: l := by
  induction changes generalizing fs with
  | nil => exact ⟨rfl, by simp [apply_changes]⟩
  | cons ch rest ih =>
    constructor
    · simp only [apply_changes, List.length_cons]
      exact congrArg (· + 1) (ih _).1
    · intro l hl
      simp only [apply_changes, List.mem_cons] at hl
      rcases hl with hl | hl
      · rcases h : apply_change root ch fs with e | ⟨b, msg, fs2⟩
        · rw [h] at hl
          simp only at hl
          subst hl
          exact Or.inr (List.prefix_append warnMark (errMark ++ e))
        · rw [h] at hl
          cases b
          · simp only [Bool.false_eq_true, if_false] at hl
            subst hl
            exact Or.inr (List.prefix_append warnMark msg)
          · simp only [if_true] at hl
            subst hl
            exact Or.inl (List.prefix_append okMark msg)
      · exact (ih _).2 l hl

/-- Witness for `apply_changes_reports_every_edit`: a one-edit batch whose
edit is not even a dict still yields a single warning line. -/
theorem apply_changes_reports_every_edit_witness :
    (apply_changes [] [Json.num 0] { files := [], dirs := [] }).1.length = 1 ∧
    (okMark <+: (warnMark ++ errMark ++ msgAttrErr) ∨
      warnMark <+: (warnMark ++ errMark ++ msgAttrErr)) := by
  refine ⟨(apply_changes_reports_every_edit [] [Json.num 0] { files := [], dirs := [] }).1, ?_⟩
  exact (apply_changes_reports_every_edit [] [Json.num 0] { files := [], dirs := [] }).2
    (warnMark ++ errMark ++ msgAttrErr) (by simp [apply_changes, apply_change])

/-! ## Claim C2 — path escapes are rejected and write nothing. -/

/-- Claim C2: for any edit whose `action` and `path` are non-empty strings
and whose path resolves (lexically, with `..` climbing and absolute
overrides) to something that is neither the workspace root nor a strict
descendant of it, `apply_change` fails by raising the path-escape
`ValueError`, and the batch applier records the failure and leaves the
filesystem exactly unmodified (the guard runs before `mkdir` and before
any write). -/
theorem path_escape_rejected (root : List Str) (fs : FS) (m : List (Str × Json)) (a ps : Str)
    (ha : mget m kAction = some (.str a)) (ha2 : a.isEmpty = false)
    (hp : mget m kPath = some (.str ps)) (hp2 : ps.isEmpty = false)
    (hesc : root.isPrefixOf (resolvePath root ps) = false) :
    apply_change root (.obj m) fs = .error (escMsg root ps) ∧
    apply_changes root [.obj m] fs = ([warnMark ++ errMark ++ escMsg root ps], fs) := by
  have h1 : apply_change root (.obj m) fs = .error (escMsg root ps) := by
    simp [apply_change, ha, hp, pyTruthyO, pyTruthy, ha2, hp2, safe_relpath, hesc]
  exact ⟨h1, by simp [apply_changes, h1]⟩

/-- Witness for `path_escape_rejected`: a `..`-climbing path under root
`/ws` is rejected and the filesystem value is unchanged. -/
theorem path_escape_rejected_witness :
    mget [(kAction, Json.str "replace".toList), (kPath, Json.str "../x".toList)] kAction
      = some (.str "replace".toList) ∧
    ("replace".toList : Str).isEmpty = false ∧
    ["ws".toList].isPrefixOf (resolvePath ["ws".toList] "../x".toList) = false ∧
    apply_change ["ws".toList]
        (.obj [(kAction, Json.str "replace".toList), (kPath, Json.str "../x".toList)])
        { files := [], dirs := [] }
      = .error (escMsg ["ws".toList] "../x".toList) ∧
    apply_changes ["ws".toList]
        [.obj [(kAction, Json.str "replace".toList), (kPath, Json.str "../x".toList)]]
        { files := [], dirs := [] }
      = ([warnMark ++ errMark ++ escMsg ["ws".toList] "../x".toList],
          { files := [], dirs := [] }) := by
  have h := path_escape_rejected ["ws".toList] { files := [], dirs := [] }
    [(kAction, Json.str "replace".toList), (kPath, Json.str "../x".toList)]
    "replace".toList "../x".toList rfl rfl rfl rfl rfl
  exact ⟨rfl, rfl, rfl, h.1, h.2⟩

/-! ## Claim C10 — `mkdir` of the parent precedes the action dispatch. -/

/-- Claim C10: once the path guard passes, `apply_change` creates the
parent directories of the target (line 135) before the action dispatch, so an
edit with an unknown action, or a `patch_block` whose `find` is missing
(or falsy), still extends the directory set even though it returns a
failure; the file map is untouched. -/
theorem mkdir_precedes_validation (root : List Str) (fs : FS) (m : List (Str × Json)) (a ps : Str)
    (ha : mget m kAction = some (.str a)) (ha2 : a.isEmpty = false)
    (hp : mget m kPath = some (.str ps)) (hp2 : ps.isEmpty = false)
    (hin : root.isPrefixOf (resolvePath root ps) = true)
    (hbad : (a ≠ "replace".toList ∧ a ≠ "append".toList ∧ a ≠ "patch_block".toList) ∨
      (a = "patch_block".toList ∧ pyTruthyO (mget m kFind) = false)) :
    ∃ msg, apply_change root (.obj m) fs
        = .ok (false, msg, mkdirParents (resolvePath root ps).dropLast fs) ∧
      (mkdirParents (resolvePath root ps).dropLast fs).files = fs.files ∧
      (resolvePath root ps).dropLast ∈ (mkdirParents (resolvePath root ps).dropLast fs).dirs := by
  have hmem : (resolvePath root ps).dropLast ∈ (mkdirParents (resolvePath root ps).dropLast fs).dirs := by
    simp only [mkdirParents, List.mem_append]
    exact Or.inl ((List.mem_inits _ _).mpr (List.prefix_refl _))
  have hta : pyTruthyO (some (Json.str a)) = true := by
    simp [pyTruthyO, pyTruthy, ha2]
  have htp : pyTruthyO (some (Json.str ps)) = true := by
    simp [pyTruthyO, pyTruthy, hp2]
  rcases hbad with ⟨h1, h2, h3⟩ | ⟨h1, h2⟩
  · refine ⟨msgUnknownAction ++ a, ?_, rfl, hmem⟩
    rw [show ("replace".toList : Str) = ['r', 'e', 'p', 'l', 'a', 'c', 'e'] from rfl] at h1
    rw [show ("append".toList : Str) = ['a', 'p', 'p', 'e', 'n', 'd'] from rfl] at h2
    rw [show ("patch_block".toList : Str)
      = ['p', 'a', 't', 'c', 'h', '_', 'b', 'l', 'o', 'c', 'k'] from rfl] at h3
    simp [apply_change, ha, hp, hta, htp, safe_relpath, hin, h1, h2, h3]
  · refine ⟨msgNoFind, ?_, rfl, hmem⟩
    subst h1
    have hta2 : pyTruthyO (some (Json.str ['p', 'a', 't', 'c', 'h', '_', 'b', 'l', 'o', 'c', 'k'])) = true := by
      decide
    simp [apply_change, apply_patch, ha, hp, hta, hta2, htp, safe_relpath, hin, h2]

/-- Witness for `mkdir_precedes_validation`: the unknown action `delete`
on path `a/b/c.txt` fails but creates `/ws/a/b` (and its ancestors). -/
theorem mkdir_precedes_validation_witness :
    (("delete".toList : Str) ≠ "replace".toList ∧ ("delete".toList : Str) ≠ "append".toList ∧
      ("delete".toList : Str) ≠ "patch_block".toList) ∧
    ∃ msg, apply_change ["ws".toList]
        (.obj [(kAction, Json.str "delete".toList), (kPath, Json.str "a/b/c.txt".toList)])
        { files := [], dirs := [] }
        = .ok (false, msg,
            mkdirParents (resolvePath ["ws".toList] "a/b/c.txt".toList).dropLast
              { files := [], dirs := [] }) ∧
      (mkdirParents (resolvePath ["ws".toList] "a/b/c.txt".toList).dropLast
          { files := [], dirs := [] }).files = [] ∧
      (resolvePath ["ws".toList] "a/b/c.txt".toList).dropLast ∈
        (mkdirParents (resolvePath ["ws".toList] "a/b/c.txt".toList).dropLast
          { files := [], dirs := [] }).dirs := by
  refine ⟨by decide, ?_⟩
  exact mkdir_precedes_validation ["ws".toList] { files := [], dirs := [] }
    [(kAction, Json.str "delete".toList), (kPath, Json.str "a/b/c.txt".toList)]
    "delete".toList "a/b/c.txt".toList rfl rfl rfl rfl rfl (Or.inl (by decide))

/-! ## Claim C7 — literal `patch_block` replaces exactly the first
occurrence. -/

/-- Creating directories does not change file contents. -/
theorem readD_mkdirParents (p q : List Str) (fs : FS) :
    (mkdirParents p fs).readD q = fs.readD q := rfl

/-- Claim C7: a `patch_block` with `regex` falsy, on a file read as empty
when missing, replaces exactly the first (leftmost) occurrence of `find` —
the prefix before it and the suffix after it, later occurrences included,
are kept verbatim — and fails with the block-not-found message, leaving
the file map unchanged, when `find` does not occur. -/
theorem patch_literal_first_occurrence (root : List Str) (fs : FS) (m : List (Str × Json))
    (ps f c : Str)
    (ha : mget m kAction = some (.str "patch_block".toList))
    (hp : mget m kPath = some (.str ps)) (hp2 : ps.isEmpty = false)
    (hin : root.isPrefixOf (resolvePath root ps) = true)
    (hf : mget m kFind = some (.str f)) (hf2 : f.isEmpty = false)
    (hr : pyTruthyO (mget m kRegex) = false)
    (hc : (mget m kContent).getD (.str []) = .str c) :
    (strIn f (fs.readD (resolvePath root ps)) = true →
      ∃ pfx sfx, fs.readD (resolvePath root ps) = pfx ++ f ++ sfx ∧
        (∀ pfx2 sfx2, fs.readD (resolvePath root ps) = pfx2 ++ f ++ sfx2 →
          pfx.length ≤ pfx2.length) ∧
        apply_change root (.obj m) fs
          = .ok (true, "[patch_block] ".toList ++ ps,
              (mkdirParents (resolvePath root ps).dropLast fs).write (resolvePath root ps)
                (pfx ++ c ++ sfx))) ∧
    (strIn f (fs.readD (resolvePath root ps)) = false →
      apply_change root (.obj m) fs
        = .ok (false, msgNotFoundLit ++ ps, mkdirParents (resolvePath root ps).dropLast fs)) := by
  have hta : pyTruthyO (some (Json.str ['p', 'a', 't', 'c', 'h', '_', 'b', 'l', 'o', 'c', 'k'])) = true := by
    decide
  have htp : pyTruthyO (some (Json.str ps)) = true := by
    simp [pyTruthyO, pyTruthy, hp2]
  have htf : pyTruthyO (some (Json.str f)) = true := by
    simp [pyTruthyO, pyTruthy, hf2]
  constructor
  · intro hocc
    obtain ⟨pfx, sfx, ht, hrep, hmin⟩ :=
      pyReplace1_spec f c (fs.readD (resolvePath root ps)) (List.isEmpty_eq_false.mp hf2) hocc
    refine ⟨pfx, sfx, ht, hmin, ?_⟩
    simp [apply_change, apply_patch, ha, hp, hf, hc, hr, hta, htp, htf, safe_relpath, hin,
      readD_mkdirParents, hocc, hrep]
  · intro hnocc
    simp [apply_change, apply_patch, ha, hp, hf, hc, hr, hta, htp, htf, safe_relpath, hin,
      readD_mkdirParents, hnocc]

/-- Witness for `patch_literal_first_occurrence`: replacing `b` by `X` in
`abcb` touches only the first `b`. -/
theorem patch_literal_first_occurrence_witness :
    strIn "b".toList
      (FS.readD { files := [(["ws".toList, "f".toList], "abcb".toList)], dirs := [] }
        (resolvePath ["ws".toList] "f".toList)) = true ∧
    ∃ pfx sfx,
      FS.readD { files := [(["ws".toList, "f".toList], "abcb".toList)], dirs := [] }
          (resolvePath ["ws".toList] "f".toList) = pfx ++ "b".toList ++ sfx ∧
      (∀ pfx2 sfx2,
        FS.readD { files := [(["ws".toList, "f".toList], "abcb".toList)], dirs := [] }
            (resolvePath ["ws".toList] "f".toList) = pfx2 ++ "b".toList ++ sfx2 →
        pfx.length ≤ pfx2.length) ∧
      apply_change ["ws".toList]
          (.obj [(kAction, Json.str "patch_block".toList), (kPath, Json.str "f".toList),
                 (kContent, Json.str "X".toList), (kFind, Json.str "b".toList)])
          { files := [(["ws".toList, "f".toList], "abcb".toList)], dirs := [] }
        = .ok (true, "[patch_block] ".toList ++ "f".toList,
            (mkdirParents (resolvePath ["ws".toList] "f".toList).dropLast
              { files := [(["ws".toList, "f".toList], "abcb".toList)], dirs := [] }).write
              (resolvePath ["ws".toList] "f".toList) (pfx ++ "X".toList ++ sfx)) := by
  refine ⟨by decide, ?_⟩
  exact (patch_literal_first_occurrence ["ws".toList]
    { files := [(["ws".toList, "f".toList], "abcb".toList)], dirs := [] }
    [(kAction, Json.str "patch_block".toList), (kPath, Json.str "f".toList),
     (kContent, Json.str "X".toList), (kFind, Json.str "b".toList)]
    "f".toList "b".toList "X".toList rfl rfl rfl rfl rfl rfl rfl rfl).1 (by decide)

/-! ## Claim C6 — regex `patch_block` replaces all matches, but the
replacement string is template-expanded, not exact text. -/

/-- Claim C6, counterexample: with `find = "b"`, `regex = true` and
`content` the two characters backslash-`n`, the Python `re.subn` expands the
replacement template, so the file receives newlines where the "exact text" reading of the claim expects a literal backslash-`n`.  Both matches of `b`
in `abcb` are replaced, but with the expansion of `content`, which differs
from `content` itself. -/
theorem patch_regex_template_expansion :
    apply_change []
        (.obj [(kAction, .str "patch_block".toList), (kPath, .str "f".toList),
               (kContent, .str "\\n".toList), (kFind, .str "b".toList), (kRegex, .bool true)])
        { files := [(["f".toList], "abcb".toList)], dirs := [] }
      = .ok (true, "[patch_block/regex x2] f".toList,
          { files := [(["f".toList], "a\nc\n".toList)], dirs := [[]] }) ∧
    ("a\nc\n".toList : Str) ≠ "a".toList ++ "\\n".toList ++ "c".toList ++ "\\n".toList := by
  exact ⟨rfl, by decide⟩

/-- Claim C6, amended: over the modelled pattern sublanguage, a regex
`patch_block` whose pattern compiles and whose replacement template
expands fails with the pattern-not-found message when the match count is
zero, and otherwise replaces all non-overlapping matches with the expanded
replacement and reports the match count in the success message; the
expansion is the identity exactly when `content` contains no backslash. -/
theorem patch_regex_all_matches (root : List Str) (fs : FS) (m : List (Str × Json))
    (ps f c r : Str) (p : List RPiece)
    (ha : mget m kAction = some (.str "patch_block".toList))
    (hp : mget m kPath = some (.str ps)) (hp2 : ps.isEmpty = false)
    (hin : root.isPrefixOf (resolvePath root ps) = true)
    (hf : mget m kFind = some (.str f)) (hf2 : f.isEmpty = false)
    (hr : pyTruthyO (mget m kRegex) = true)
    (hc : (mget m kContent).getD (.str []) = .str c)
    (hcomp : reCompile f = .compiled p)
    (hexp : expandTemplate c = .tok r) :
    ((subnAux p r (fs.readD (resolvePath root ps))).2 = 0 →
      apply_change root (.obj m) fs
        = .ok (false, msgNotFoundRegex ++ ps, mkdirParents (resolvePath root ps).dropLast fs)) ∧
    (∀ n, (subnAux p r (fs.readD (resolvePath root ps))).2 = n → 0 < n →
      apply_change root (.obj m) fs
        = .ok (true, "[patch_block/regex x".toList ++ natStr n ++ "] ".toList ++ ps,
            (mkdirParents (resolvePath root ps).dropLast fs).write (resolvePath root ps)
              (subnAux p r (fs.readD (resolvePath root ps))).1)) ∧
    (∀ s : Str, '\\' ∉ s → expandTemplate s = .tok s) := by
  have hta : pyTruthyO (some (Json.str ['p', 'a', 't', 'c', 'h', '_', 'b', 'l', 'o', 'c', 'k'])) = true := by
    decide
  have htp : pyTruthyO (some (Json.str ps)) = true := by
    simp [pyTruthyO, pyTruthy, hp2]
  have htf : pyTruthyO (some (Json.str f)) = true := by
    simp [pyTruthyO, pyTruthy, hf2]
  refine ⟨?_, ?_, expandTemplate_no_backslash⟩
  · intro hzero
    simp [apply_change, apply_patch, ha, hp, hf, hc, hr, hta, htp, htf, safe_relpath, hin,
      readD_mkdirParents, hcomp, hexp, hzero]
  · intro n hn hpos
    have hnz : ¬ (subnAux p r (fs.readD (resolvePath root ps))).2 = 0 := by omega
    simp [apply_change, apply_patch, ha, hp, hf, hc, hr, hta, htp, htf, safe_relpath, hin,
      readD_mkdirParents, hcomp, hexp, hnz, hn]
    omega

/-- Witness for `patch_regex_all_matches`: the star pattern `b*` on `abcbb`
has five non-overlapping matches (three of them empty), all replaced. -/
theorem patch_regex_all_matches_witness :
    reCompile "b*".toList = .compiled [.pstar (.rch 'b')] ∧
    expandTemplate "X".toList = .tok "X".toList ∧
    (subnAux [.pstar (.rch 'b')] "X".toList
      (FS.readD { files := [(["ws".toList, "g".toList], "abcbb".toList)], dirs := [] }
        (resolvePath ["ws".toList] "g".toList))).2 = 5 ∧
    apply_change ["ws".toList]
        (.obj [(kAction, .str "patch_block".toList), (kPath, .str "g".toList),
               (kContent, .str "X".toList), (kFind, .str "b*".toList), (kRegex, .bool true)])
        { files := [(["ws".toList, "g".toList], "abcbb".toList)], dirs := [] }
      = .ok (true, "[patch_block/regex x".toList ++ natStr 5 ++ "] ".toList ++ "g".toList,
          (mkdirParents (resolvePath ["ws".toList] "g".toList).dropLast
            { files := [(["ws".toList, "g".toList], "abcbb".toList)], dirs := [] }).write
            (resolvePath ["ws".toList] "g".toList)
            (subnAux [.pstar (.rch 'b')] "X".toList
              (FS.readD { files := [(["ws".toList, "g".toList], "abcbb".toList)], dirs := [] }
                (resolvePath ["ws".toList] "g".toList))).1) := by
  refine ⟨rfl, rfl, rfl, ?_⟩
  exact ((patch_regex_all_matches ["ws".toList]
    { files := [(["ws".toList, "g".toList], "abcbb".toList)], dirs := [] }
    [(kAction, Json.str "patch_block".toList), (kPath, Json.str "g".toList),
     (kContent, Json.str "X".toList), (kFind, Json.str "b*".toList), (kRegex, Json.bool true)]
    "g".toList "b*".toList "X".toList "X".toList [.pstar (.rch 'b')]
    rfl rfl rfl rfl rfl rfl rfl rfl rfl rfl).2.1) 5 rfl (by omega)

/-! ## Claim C5 — placement tolerance and strictness of the response
parser. -/

/-- The single greedy candidate of the findall scan of `candList`:
prose without braces before a span that starts with the first `{` and ends
with the last `}` is stripped, and exactly that span is the candidate. -/
theorem candList_embed (pre s suf : Str) (hpre : lbrace ∉ pre) (hsuf : rbrace ∉ suf)
    (hh : s.head? = some lbrace) (hl : s.getLast? = some rbrace) :
    candList (pre ++ s ++ suf) = [s] := by
  obtain ⟨s', rfl⟩ : ∃ s', s = lbrace :: s' := by
    cases s with
    | nil => simp at hh
    | cons a t =>
      refine ⟨t, ?_⟩
      have : a = lbrace := by simpa using hh
      rw [this]
  have h1 : (pre ++ (lbrace :: s') ++ suf).dropWhile (fun c => !(c == lbrace))
      = (lbrace :: s') ++ suf := by
    rw [List.append_assoc]
    rw [dropWhile_append_all (fun a ha => by
      have : ¬ a = lbrace := fun hx => hpre (hx ▸ ha)
      simp [this])]
    simp [List.dropWhile_cons]
  have h2 : ((lbrace :: s') ++ suf).reverse.dropWhile (fun c => !(c == rbrace))
      = (lbrace :: s').reverse := by
    rw [List.reverse_append]
    rw [dropWhile_append_all (fun a ha => by
      have : ¬ a = rbrace := fun hx => hsuf (hx ▸ (List.mem_reverse.mp ha))
      simp [this])]
    have hrev : (lbrace :: s').reverse.head? = some rbrace := by
      rw [List.head?_reverse]
      exact hl
    cases hr : (lbrace :: s').reverse with
    | nil => simp at hr
    | cons b w =>
      have hb : b = rbrace := by
        rw [hr] at hrev
        simpa using hrev
      rw [hb]
      simp [List.dropWhile_cons]
  simp only [candList]
  rw [h1, h2, List.reverse_reverse]
  simp

/-- Claim C5, amended: the parser considers a single candidate span, the
one from the first `{` to the last `}` of the whole text.  It is tolerant
of arbitrary brace-free prose before a payload and `}`-free prose after it
(first conjunct), and it never repairs: any accepted value decodes
strictly either from that candidate span or from the whole stripped text
(second conjunct).  What it does not do — see the counterexample — is try
several embedded spans in order. -/
theorem parse_block_prose_tolerant :
    (∀ pre s suf j, lbrace ∉ pre → rbrace ∉ suf → s.head? = some lbrace →
      s.getLast? = some rbrace → parseJson s = some j →
      parse_first_json_block (pre ++ s ++ suf) = .ok j) ∧
    (∀ t j, parse_first_json_block t = .ok j →
      (∃ c rest, candList t = c :: rest ∧ parseJson c = some j) ∨
        parseJson (pyStrip t) = some j) := by
  constructor
  · intro pre s suf j h1 h2 h3 h4 h5
    unfold parse_first_json_block
    rw [candList_embed pre s suf h1 h2 h3 h4]
    simp [h5]
  · intro t j h
    unfold parse_first_json_block at h
    have hfall : pfjFallback t = .ok j → parseJson (pyStrip t) = some j := by
      intro hf
      unfold pfjFallback at hf
      by_cases hcnd : (pyStrip t).headD ' ' = lbrace ∧ (pyStrip t).getLastD ' ' = rbrace
      · rw [if_pos hcnd] at hf
        cases hp : parseJson (pyStrip t) with
        | some j2 =>
          rw [hp] at hf
          injection hf with hj
          rw [hj]
        | none =>
          rw [hp] at hf
          cases hf
      · rw [if_neg hcnd] at hf
        cases hf
    cases hc : candList t with
    | nil =>
      rw [hc] at h
      exact Or.inr (hfall h)
    | cons c rest =>
      rw [hc] at h
      have h2 : (match parseJson c with
        | some j0 => (Except.ok j0 : Except Str Json)
        | none => pfjFallback t) = Except.ok j := h
      cases hp : parseJson c with
      | some j2 =>
        rw [hp] at h2
        injection h2 with hj
        exact Or.inl ⟨c, rest, rfl, hj ▸ hp⟩
      | none =>
        rw [hp] at h2
        exact Or.inr (hfall h2)

/-- Witness for `parse_block_prose_tolerant`: prose before and after a
single `{}` payload is ignored and the payload decodes. -/
theorem parse_block_prose_tolerant_witness :
    lbrace ∉ "noise ".toList ∧ rbrace ∉ " tail".toList ∧
    parseJson "\x7b\x7d".toList = some (.obj []) ∧
    parse_first_json_block ("noise ".toList ++ "\x7b\x7d".toList ++ " tail".toList)
      = .ok (.obj []) := by
  refine ⟨by decide, by decide, rfl, ?_⟩
  exact parse_block_prose_tolerant.1 "noise ".toList "\x7b\x7d".toList " tail".toList
    (.obj []) (by decide) (by decide) rfl rfl rfl

/-- Claim C5, counterexample: on a text holding two decodable payloads
separated by prose, the claimed behaviour — return the first embedded span
that strictly decodes — would yield the first `\x7b\x7d`; the code instead
feeds the single greedy span `\x7b\x7dx\x7b\x7d` (and then the identical
stripped text) to the decoder and raises. -/
theorem parse_block_greedy_counterexample :
    parse_first_json_block "\x7b\x7dx\x7b\x7d".toList = .error msgJsonDecode ∧
    parseJson "\x7b\x7d".toList = some (.obj []) ∧
    "\x7b\x7dx\x7b\x7d".toList = ([] : Str) ++ "\x7b\x7d".toList ++ "x\x7b\x7d".toList := by
  exact ⟨rfl, rfl, rfl⟩

/-! ## Claim C9 — score range is not validated. -/

/-- Claim C9, divergence evidence: `int(claude_json.get("score", 1))`
accepts the out-of-range score 7 unchanged — no exception, no clamp — and
a full run in which both collaborators report 7 every turn proceeds
silently to exhaustion instead of flagging a parse defect. -/
theorem score_out_of_range_silently_accepted :
    readScore (.obj [(kScore, .num 7)]) = .ok 7 ∧
    runMain ["ws".toList] (fun _ => .ok (.obj [(kScore, .num 7)]))
        (fun _ => .ok (.obj [(kScore, .num 7)])) none { files := [], dirs := [] }
      = .noCandidate none 5 { files := [], dirs := [] } := ⟨rfl, rfl⟩

/-! ## The loop lemmas shared by claims C3, C4 and C8. -/

/-- A non-convergent completed turn advances the loop, carrying both
`changes` values into the bindings of the next iteration. -/
theorem negotiate_step (root : List Str) (cSeq dSeq : Nat → Except Str Json)
    (answer : Option Str) (cs ds : Nat → Int) (cch dch : Nat → Json)
    (t fuel rc : Nat) (cP dP : Option Json) (fs : FS)
    (h : GoodTurn cSeq dSeq cs ds cch dch t) (hnc : ¬(cs t = 5 ∧ ds t = 5)) :
    negotiate root cSeq dSeq answer (fuel + 1) t rc cP dP fs
      = negotiate root cSeq dSeq answer fuel (t + 1) (rc + 1) (some (cch t)) (some (dch t)) fs := by
  obtain ⟨cj, dj, h1, h2, h3, h4, h5, h6⟩ := h
  simp [negotiate, h1, h2, h3, h4, h5, h6, hnc]

/-- Iterating `negotiate_step`: `k` consecutive non-convergent turns
starting at `t` advance the loop `k` turns, leaving the latest
turn `changes` bound. -/
theorem negotiate_reach (root : List Str) (cSeq dSeq : Nat → Except Str Json)
    (answer : Option Str) (cs ds : Nat → Int) (cch dch : Nat → Json) :
    ∀ (k fuel t rc : Nat) (cP dP : Option Json) (fs : FS),
      (∀ u, u < k → GoodTurn cSeq dSeq cs ds cch dch (t + u) ∧
        ¬(cs (t + u) = 5 ∧ ds (t + u) = 5)) →
      negotiate root cSeq dSeq answer (fuel + k) t rc cP dP fs
        = negotiate root cSeq dSeq answer fuel (t + k) (rc + k)
            (if k = 0 then cP else some (cch (t + k - 1)))
            (if k = 0 then dP else some (dch (t + k - 1))) fs := by
  intro k
  induction k with
  | zero => intro fuel t rc cP dP fs _; simp
  | succ k ih =>
    intro fuel t rc cP dP fs hall
    have h0 := hall 0 (by omega)
    rw [show fuel + (k + 1) = (fuel + k) + 1 from rfl]
    rw [negotiate_step root cSeq dSeq answer cs ds cch dch t (fuel + k) rc cP dP fs
      (by simpa using h0.1) (by simpa using h0.2)]
    rw [ih fuel (t + 1) (rc + 1) (some (cch t)) (some (dch t)) fs
      (fun u hu => by
        have := hall (u + 1) (by omega)
        constructor
        · have h := this.1
          rw [show t + 1 + u = t + (u + 1) from by omega]
          exact h
        · have h := this.2
          rw [show t + 1 + u = t + (u + 1) from by omega]
          exact h)]
    cases k with
    | zero => simp
    | succ k2 =>
      have e1 : t + 1 + (k2 + 1) = t + (k2 + 1 + 1) := by omega
      have e2 : rc + 1 + (k2 + 1) = rc + (k2 + 1 + 1) := by omega
      have e3 : t + 1 + (k2 + 1) - 1 = t + (k2 + 1 + 1) - 1 := by omega
      simp only [e1, e2, e3]
      simp

/-! ## Claim C3 — a double 5 commits in the same turn. -/

/-- Claim C3: if the loop reaches turn `t` through completed non-convergent
turns and at turn `t` both scores are 5, the run terminates right there in
`commit`, applying the Reviewer `changes` when truthy (non-empty list)
and otherwise the Proposer ones — this is `apply_changes(d_changes or
c_changes)` at line 259. -/
theorem negotiate_double5_commit (root : List Str) (cSeq dSeq : Nat → Except Str Json)
    (answer : Option Str) (fs : FS) (cs ds : Nat → Int) (cch dch : Nat → Json) (t : Nat)
    (ht : t < TURN_LIMIT)
    (hpre : ∀ u, u < t → GoodTurn cSeq dSeq cs ds cch dch u ∧ ¬(cs u = 5 ∧ ds u = 5))
    (hgood : GoodTurn cSeq dSeq cs ds cch dch t)
    (h5 : cs t = 5 ∧ ds t = 5)
    (logs : List Str) (fs2 : FS)
    (happ : apply_changes_py root (pyOrJ (dch t) (cch t)) fs = .ok (logs, fs2)) :
    runMain root cSeq dSeq answer fs = .commit t logs fs2 := by
  unfold runMain
  have hT : TURN_LIMIT = (TURN_LIMIT - t - 1 + 1) + t := by
    unfold TURN_LIMIT at *
    omega
  rw [hT]
  rw [negotiate_reach root cSeq dSeq answer cs ds cch dch t (TURN_LIMIT - t - 1 + 1) 0 0
    none none fs (fun u hu => by simpa using hpre u hu)]
  obtain ⟨cj, dj, h1, h2, h3, h4, h5d, h6⟩ := hgood
  simp [negotiate, h1, h2, h3, h4, h5d, h6, h5.1, h5.2, happ]

/-- Witness for `negotiate_double5_commit`: the convergence
scenario of the specification — Proposer score 5 with no changes, Reviewer score 5 with one
`replace` of `"hello"` into `notes.txt` — commits on turn 0 (one single
round trip) and afterwards `notes.txt` reads `"hello"`. -/
theorem negotiate_double5_commit_witness :
    0 < TURN_LIMIT ∧
    GoodTurn (fun _ => .ok jP5) (fun _ => .ok jR5) (fun _ => 5) (fun _ => 5)
      (fun _ => .arr []) (fun _ => .arr [opNotes]) 0 ∧
    apply_changes_py ["ws".toList] (pyOrJ (.arr [opNotes]) (.arr [])) fsEmpty
      = .ok ([okMark ++ "[replace] notes.txt".toList],
          { files := [(["ws".toList, "notes.txt".toList], "hello".toList)],
            dirs := [[], ["ws".toList]] }) ∧
    runMain ["ws".toList] (fun _ => .ok jP5) (fun _ => .ok jR5) none fsEmpty
      = .commit 0 [okMark ++ "[replace] notes.txt".toList]
          { files := [(["ws".toList, "notes.txt".toList], "hello".toList)],
            dirs := [[], ["ws".toList]] } ∧
    FS.readD
        { files := [(["ws".toList, "notes.txt".toList], "hello".toList)],
          dirs := [[], ["ws".toList]] }
        ["ws".toList, "notes.txt".toList] = "hello".toList := by
  refine ⟨by decide, ⟨jP5, jR5, rfl, rfl, rfl, rfl, rfl, rfl⟩, rfl, ?_, rfl⟩
  exact negotiate_double5_commit ["ws".toList] (fun _ => .ok jP5) (fun _ => .ok jR5) none
    fsEmpty (fun _ => 5) (fun _ => 5) (fun _ => .arr []) (fun _ => .arr [opNotes]) 0
    (by decide) (fun u hu => absurd hu (by omega))
    ⟨jP5, jR5, rfl, rfl, rfl, rfl, rfl, rfl⟩ ⟨rfl, rfl⟩ _ _ rfl

/-! ## Claim C4 — what a failed or unparseable message aborts, and what it
does not. -/

/-- Claim C4, counterexample: a Reviewer failure on turn 1, after a turn 0
whose Reviewer `changes` were empty, does not keep the failed turn free of
filesystem writes.  The `break` lands in the post-loop code: `candidate =
d_changes` (turn 0, falsy) falls back at line 278 to `c_changes` — the
**failed turn's** Proposer changes — and an affirmative answer applies
them, writing `notes.txt`. -/
theorem reviewer_failure_turn1_writes :
    dSeqC4 1 = .error "Boom".toList ∧
    cSeqC4 1 = .ok jR3 ∧
    readChanges jR3 = .ok (.arr [opNotes]) ∧
    runMain ["ws".toList] cSeqC4 dSeqC4 (some "o".toList) fsEmpty
      = .applied (some "Boom".toList) 1 (.arr [opNotes])
          [okMark ++ "[replace] notes.txt".toList]
          { files := [(["ws".toList, "notes.txt".toList], "hello".toList)],
            dirs := [[], ["ws".toList]] } ∧
    FS.readD
        { files := [(["ws".toList, "notes.txt".toList], "hello".toList)],
          dirs := [[], ["ws".toList]] }
        ["ws".toList, "notes.txt".toList] = "hello".toList := by
  exact ⟨rfl, rfl, rfl, rfl, rfl⟩

/-- Claim C4, amended: a failure obtaining or parsing a message always ends
the loop at once and the triggering error is reported, and without an
affirmative answer at the manual gate no write ever happens — but the
abort is not write-free in general.  In order of the conjuncts: a `crash`
outcome always carries the untouched filesystem; a turn-0 Proposer failure
crashes with the error reported, zero Reviewer invocations and no writes;
the post-loop gate never writes absent an `o` answer; a Proposer failure
at turn `t` hands the gate the bindings of turn `t - 1` (none at turn 0);
and a Reviewer failure at turn `t` hands the gate the **failed turn's**
Proposer `changes` together with turn `t - 1`'s Reviewer `changes` — so on
explicit confirmation the gate can apply edits from the failed turn, as
the counterexample shows. -/
theorem parse_failure_gate_behavior (root : List Str) (cSeq dSeq : Nat → Except Str Json)
    (answer : Option Str) (fs : FS) :
    (∀ fuel t rc cP dP e b n fs2,
      negotiate root cSeq dSeq answer fuel t rc cP dP fs = .crash e b n fs2 → fs2 = fs) ∧
    (∀ e, cSeq 0 = .error e →
      runMain root cSeq dSeq answer fs = .crash msgNameErr (some e) 0 fs) ∧
    (∀ b t rc cP dP, pyAnswer answer ≠ "o".toList →
      (postLoop root answer b t rc cP dP fs).fsOf = fs) ∧
    (∀ (cs ds : Nat → Int) (cch dch : Nat → Json) (t : Nat) (e : Str),
      t < TURN_LIMIT →
      (∀ u, u < t → GoodTurn cSeq dSeq cs ds cch dch u ∧ ¬(cs u = 5 ∧ ds u = 5)) →
      cSeq t = .error e →
      runMain root cSeq dSeq answer fs
        = postLoop root answer (some e) t t
            (if t = 0 then none else some (cch (t - 1)))
            (if t = 0 then none else some (dch (t - 1))) fs) ∧
    (∀ (cs ds : Nat → Int) (cch dch : Nat → Json) (t : Nat) (e : Str) (cj : Json),
      t < TURN_LIMIT →
      (∀ u, u < t → GoodTurn cSeq dSeq cs ds cch dch u ∧ ¬(cs u = 5 ∧ ds u = 5)) →
      cSeq t = .ok cj → readScore cj = .ok (cs t) → readChanges cj = .ok (cch t) →
      dSeq t = .error e →
      runMain root cSeq dSeq answer fs
        = postLoop root answer (some e) t (t + 1) (some (cch t))
            (if t = 0 then none else some (dch (t - 1))) fs) := by
  have hpost : ∀ b t rc cP dP e b2 n fs2,
      postLoop root answer b t rc cP dP fs = .crash e b2 n fs2 → fs2 = fs := by
    intro b t rc cP dP e b2 n fs2 h
    unfold postLoop at h
    rcases dP with _ | dCh
    · cases h
      rfl
    rcases cP with _ | cCh
    · cases h
      rfl
    simp only at h
    by_cases h1 : pyTruthy (if pyTruthy dCh then dCh else cCh) = true
    · rw [if_pos h1] at h
      by_cases h2 : pyAnswer answer = "o".toList
      · rw [if_pos h2] at h
        cases ha : apply_changes_py root (if pyTruthy dCh then dCh else cCh) fs with
        | error e2 =>
          rw [ha] at h
          cases h
          rfl
        | ok v =>
          rw [ha] at h
          cases h
      · rw [if_neg h2] at h
        cases h
    · rw [if_neg h1] at h
      cases h
  refine ⟨?_, ?_, ?_, ?_, ?_⟩
  · intro fuel
    induction fuel with
    | zero =>
      intro t rc cP dP e b n fs2 h
      exact hpost none t rc cP dP e b n fs2 h
    | succ fuel ih =>
      intro t rc cP dP e b n fs2 h
      unfold negotiate at h
      repeat' split at h
      all_goals
        first
          | exact hpost _ _ _ _ _ _ _ _ _ h
          | (cases h; rfl)
          | exact Outcome.noConfusion h
          | exact ih _ _ _ _ _ _ _ _ h
  · intro e he
    unfold runMain TURN_LIMIT negotiate
    rw [he]
    rfl
  · intro b t rc cP dP hna
    unfold postLoop
    rcases dP with _ | dCh
    · rfl
    rcases cP with _ | cCh
    · rfl
    simp only
    by_cases h1 : pyTruthy (if pyTruthy dCh then dCh else cCh) = true
    · rw [if_pos h1, if_neg hna]
      rfl
    · rw [if_neg h1]
      rfl
  · intro cs ds cch dch t e ht hpre he
    unfold runMain
    have hT : TURN_LIMIT = (TURN_LIMIT - t - 1 + 1) + t := by
      unfold TURN_LIMIT at *
      omega
    rw [hT]
    rw [negotiate_reach root cSeq dSeq answer cs ds cch dch t (TURN_LIMIT - t - 1 + 1) 0 0
      none none fs (fun u hu => by simpa using hpre u hu)]
    simp only [Nat.zero_add]
    simp [negotiate, he]
  · intro cs ds cch dch t e cj ht hpre hok hsc hch he
    unfold runMain
    have hT : TURN_LIMIT = (TURN_LIMIT - t - 1 + 1) + t := by
      unfold TURN_LIMIT at *
      omega
    rw [hT]
    rw [negotiate_reach root cSeq dSeq answer cs ds cch dch t (TURN_LIMIT - t - 1 + 1) 0 0
      none none fs (fun u hu => by simpa using hpre u hu)]
    simp only [Nat.zero_add]
    simp [negotiate, hok, hsc, hch, he]

/-- Witness for `parse_failure_gate_behavior`: the same broken-turn-1 run as
the counterexample, but with no confirmation — the run ends at the gate
with the error reported and the filesystem exactly unchanged. -/
theorem parse_failure_gate_behavior_witness :
    dSeqC4 1 = .error "Boom".toList ∧
    pyAnswer none ≠ "o".toList ∧
    runMain ["ws".toList] cSeqC4 dSeqC4 none fsEmpty
      = postLoop ["ws".toList] none (some "Boom".toList) 1 2 (some (.arr [opNotes]))
          (some (.arr [])) fsEmpty ∧
    (postLoop ["ws".toList] none (some "Boom".toList) 1 2 (some (.arr [opNotes]))
        (some (.arr [])) fsEmpty).fsOf = fsEmpty := by
  refine ⟨rfl, by decide, ?_, ?_⟩
  · exact (parse_failure_gate_behavior ["ws".toList] cSeqC4 dSeqC4 none fsEmpty).2.2.2.2
      (fun _ => 3) (fun _ => 3) (fun _ => .arr [opNotes]) (fun _ => .arr []) 1
      "Boom".toList jR3 (by decide)
      (fun u hu => by
        have hu0 : u = 0 := by omega
        subst hu0
        exact ⟨⟨jR3, jD3, rfl, rfl, rfl, rfl, rfl, rfl⟩, fun hx => by simp at hx⟩)
      rfl rfl rfl rfl
  · exact (parse_failure_gate_behavior ["ws".toList] cSeqC4 dSeqC4 none fsEmpty).2.2.1
      (some "Boom".toList) 1 2 (some (.arr [opNotes])) (some (.arr [])) (by decide)

/-! ## Claim C8 — exhaustion, candidate choice, and the manual gate. -/

/-- Claim C8: when every turn up to the bound completes without a double 5,
the loop exits after exactly `TURN_LIMIT` round trips into the manual
gate, where the candidate is the Reviewer `changes` of the last turn
(falling back to the Proposer `changes` of the last turn when the Reviewer
ones are falsy);
without an affirmative `o` answer nothing is applied and the filesystem is
returned untouched, and with `o` the candidate batch is applied. -/
theorem negotiate_exhaustion_manual_gate (root : List Str) (cSeq dSeq : Nat → Except Str Json)
    (answer : Option Str) (fs : FS) (cs ds : Nat → Int) (cch dch : Nat → Json)
    (hall : ∀ u, u < TURN_LIMIT → GoodTurn cSeq dSeq cs ds cch dch u ∧
      ¬(cs u = 5 ∧ ds u = 5)) :
    runMain root cSeq dSeq answer fs
      = postLoop root answer none TURN_LIMIT TURN_LIMIT (some (cch (TURN_LIMIT - 1)))
          (some (dch (TURN_LIMIT - 1))) fs ∧
    (pyTruthy (pyOrJ (dch (TURN_LIMIT - 1)) (cch (TURN_LIMIT - 1))) = false →
      runMain root cSeq dSeq answer fs = .noCandidate none TURN_LIMIT fs) ∧
    (pyTruthy (pyOrJ (dch (TURN_LIMIT - 1)) (cch (TURN_LIMIT - 1))) = true →
      pyAnswer answer ≠ "o".toList →
      runMain root cSeq dSeq answer fs
        = .declined none TURN_LIMIT (pyOrJ (dch (TURN_LIMIT - 1)) (cch (TURN_LIMIT - 1))) fs) ∧
    (pyTruthy (pyOrJ (dch (TURN_LIMIT - 1)) (cch (TURN_LIMIT - 1))) = true →
      pyAnswer answer = "o".toList → ∀ logs fs2,
      apply_changes_py root (pyOrJ (dch (TURN_LIMIT - 1)) (cch (TURN_LIMIT - 1))) fs
        = .ok (logs, fs2) →
      runMain root cSeq dSeq answer fs
        = .applied none TURN_LIMIT (pyOrJ (dch (TURN_LIMIT - 1)) (cch (TURN_LIMIT - 1)))
            logs fs2) ∧
    (pyAnswer answer ≠ "o".toList → (runMain root cSeq dSeq answer fs).fsOf = fs) := by
  have hr := negotiate_reach root cSeq dSeq answer cs ds cch dch 5 0 0 0 none none fs
    (fun u hu => by simpa using hall u hu)
  have hmain : runMain root cSeq dSeq answer fs
      = postLoop root answer none 5 5 (some (cch 4)) (some (dch 4)) fs := by
    unfold runMain
    have h0 : negotiate root cSeq dSeq answer 5 0 0 none none fs
        = negotiate root cSeq dSeq answer 0 5 5 (some (cch 4)) (some (dch 4)) fs := by
      simpa using hr
    rw [show TURN_LIMIT = 5 from rfl, h0]
    unfold negotiate
    rfl
  have hcand : (if pyTruthy (dch 4) then dch 4 else cch 4) = pyOrJ (dch 4) (cch 4) := rfl
  refine ⟨hmain, ?_, ?_, ?_, ?_⟩
  · intro hf
    have hf4 : pyTruthy (pyOrJ (dch 4) (cch 4)) = false := hf
    rw [hmain]
    unfold postLoop
    simp [hcand, hf4]
    rfl
  · intro ht hna
    have ht4 : pyTruthy (pyOrJ (dch 4) (cch 4)) = true := ht
    have hna4 : ¬ pyAnswer answer = ['o'] := hna
    rw [hmain]
    unfold postLoop
    simp [hcand, ht4, hna4]
    exact ⟨rfl, rfl⟩
  · intro ht ha logs fs2 happ
    have ht4 : pyTruthy (pyOrJ (dch 4) (cch 4)) = true := ht
    have ha4 : pyAnswer answer = ['o'] := ha
    have happ4 : apply_changes_py root (pyOrJ (dch 4) (cch 4)) fs = .ok (logs, fs2) := happ
    rw [hmain]
    unfold postLoop
    simp [hcand, ht4, ha4, happ4]
    exact ⟨rfl, rfl⟩
  · intro hna
    have hna4 : ¬ pyAnswer answer = ['o'] := hna
    rw [hmain]
    unfold postLoop
    simp only [hcand]
    by_cases ht : pyTruthy (pyOrJ (dch 4) (cch 4)) = true
    · simp [ht, hna4, Outcome.fsOf]
    · simp only [Bool.not_eq_true] at ht
      simp [ht, Outcome.fsOf]

/-- Witness for `negotiate_exhaustion_manual_gate`: both sides score 3 every
turn with a non-empty Reviewer edit list; after the five round trips, the
gate offers exactly those edits and the default (absent) answer applies
nothing, leaving the filesystem untouched. -/
theorem negotiate_exhaustion_manual_gate_witness :
    pyTruthy (pyOrJ (.arr [opNotes]) (.arr [opNotes])) = true ∧
    pyAnswer none ≠ "o".toList ∧
    runMain ["ws".toList] (fun _ => .ok jR3) (fun _ => .ok jR3) none fsEmpty
      = .declined none TURN_LIMIT (pyOrJ (.arr [opNotes]) (.arr [opNotes])) fsEmpty ∧
    (runMain ["ws".toList] (fun _ => .ok jR3) (fun _ => .ok jR3) none fsEmpty).fsOf
      = fsEmpty := by
  refine ⟨rfl, by decide, ?_, ?_⟩
  · exact (negotiate_exhaustion_manual_gate ["ws".toList] (fun _ => .ok jR3)
      (fun _ => .ok jR3) none fsEmpty (fun _ => 3) (fun _ => 3) (fun _ => .arr [opNotes])
      (fun _ => .arr [opNotes])
      (fun u _ => ⟨⟨jR3, jR3, rfl, rfl, rfl, rfl, rfl, rfl⟩,
        fun hx => by simp at hx⟩)).2.2.1 rfl (by decide)
  · exact (negotiate_exhaustion_manual_gate ["ws".toList] (fun _ => .ok jR3)
      (fun _ => .ok jR3) none fsEmpty (fun _ => 3) (fun _ => 3) (fun _ => .arr [opNotes])
      (fun _ => .arr [opNotes])
      (fun u _ => ⟨⟨jR3, jR3, rfl, rfl, rfl, rfl, rfl, rfl⟩,
        fun hx => by simp at hx⟩)).2.2.2.2 (by decide)
